import Mathlib

/-!
Verification of the telemetry-logging endpoint of pdfjs-telemetry.

Header values, bodies and log contents are modelled as lists of byte
values (`ByteStr`); all strings exercised by the tests are ASCII, where
the byte value of a character is its code point.
-/

/-- A byte string: list of byte values. -/
abbrev ByteStr := List Nat

/-- ASCII byte values of a Lean string literal (used for the concrete
test inputs, which are all ASCII). -/
def asciiBytes (s : String) : ByteStr := s.data.map Char.toNat

/-- Character class `[0-9]` on byte values (ASCII 48..57). -/
def isDigitByte (b : Nat) : Bool := decide (48 ≤ b) && decide (b ≤ 57)

/-- Numeric value of a string of decimal-digit bytes, most significant
digit first. -/
def decimalValue (cs : ByteStr) : Nat := cs.foldl (fun a b => 10 * a + (b - 48)) 0

/-!
The single-component numeric range pattern, translated from the regex in
src/testserver.py (`test_extension_version_pattern`, copy of the nginx
config):
  `^([0-5]?[0-9]{1,4}|6([0-4][0-9]{3}|5([0-4][0-9]{2}|5([0-2][0-9]|3[0-5]))))$`
as an anchored full-string matcher on byte lists. ASCII: '0'..'9' are
48..57, so e.g. `[0-5]` is the byte range 48..53.
-/

/-- Full match of `[0-9]{1,4}`. -/
def matchDigits14 (cs : ByteStr) : Bool :=
  decide (1 ≤ cs.length) && decide (cs.length ≤ 4) && cs.all isDigitByte

/-- Full match of `[0-2][0-9]|3[0-5]`. -/
def matchTailA : ByteStr → Bool
  | [a, b] =>
      (decide (48 ≤ a) && decide (a ≤ 50) && isDigitByte b)
      || (decide (a = 51) && decide (48 ≤ b) && decide (b ≤ 53))
  | _ => false

/-- Full match of `[0-4][0-9]{2}|5([0-2][0-9]|3[0-5])`. -/
def matchTailB : ByteStr → Bool
  | a :: rest =>
      (decide (48 ≤ a) && decide (a ≤ 52) && decide (rest.length = 2) && rest.all isDigitByte)
      || (decide (a = 53) && matchTailA rest)
  | [] => false

/-- Full match of `[0-4][0-9]{3}|5([0-4][0-9]{2}|5([0-2][0-9]|3[0-5]))`. -/
def matchTailC : ByteStr → Bool
  | a :: rest =>
      (decide (48 ≤ a) && decide (a ≤ 52) && decide (rest.length = 3) && rest.all isDigitByte)
      || (decide (a = 53) && matchTailB rest)
  | [] => false

/-- Full match of the whole anchored pattern
`^([0-5]?[0-9]{1,4}|6(...))$`: either 1–4 digits, or a leading `[0-5]`
followed by 1–4 digits, or `6` followed by the 60000..65535 tail. -/
def versionNumPattern (cs : ByteStr) : Bool :=
  matchDigits14 cs
  || (match cs with
      | a :: rest =>
          (decide (48 ≤ a) && decide (a ≤ 53) && matchDigits14 rest)
          || (decide (a = 54) && matchTailC rest)
      | [] => false)

/-- Split a byte string on the dot byte (ASCII 46); splitting the empty
string yields one empty component, like Python's `"".split('.')`. -/
def splitDots : ByteStr → List ByteStr
  | [] => [[]]
  | b :: rest =>
    if b = 46 then [] :: splitDots rest
    else
      match splitDots rest with
      | g :: gs => (b :: g) :: gs
      | [] => [[b]]

/-- Modelled from the spec: the `extension-version` grammar of the nginx
configuration (the configuration file itself is not in src/): 1 to 4
dot-separated components, each a full match of the numeric range pattern
(which is the regex reproduced in src/testserver.py). -/
def extVersionValid (s : ByteStr) : Bool :=
  let comps := splitDots s
  decide (1 ≤ comps.length) && decide (comps.length ≤ 4) && comps.all versionNumPattern

/-- The spec's own wording of the canonical single-component check
(§4.1): "the string must consist only of decimal digits and represent an
integer in [0, 65535]" — written from the spec's words, to be compared
with `versionNumPattern`. -/
def specNumericComponent (c : ByteStr) : Bool :=
  decide (c ≠ []) && c.all isDigitByte && decide (decimalValue c ≤ 65535)

/-- Character class `[0-9a-f]` on byte values (lowercase hex). -/
def isLowerHexByte (b : Nat) : Bool :=
  (decide (48 ≤ b) && decide (b ≤ 57)) || (decide (97 ≤ b) && decide (b ≤ 102))

/-- Modelled from the spec: `deduplication-id` must match `^[0-9a-f]{N}$`
for the configured length N (the nginx configuration holding the regex is
not in src/). -/
def dedupIdValid (n : Nat) (s : ByteStr) : Bool :=
  decide (s.length = n) && s.all isLowerHexByte

/-- Modelled from the spec: `user-agent` must be 1..1000 bytes and
contain no NUL byte (the nginx configuration holding the check is not in
src/). -/
def userAgentValid (s : ByteStr) : Bool :=
  decide (1 ≤ s.length) && decide (s.length ≤ 1000) && s.all (fun b => decide (b ≠ 0))

/-- Deployment configuration: the fixed `deduplication-id` length. -/
structure Config where
  dedupLen : Nat

/-- A parsed incoming request, as handed to the validator by the HTTP
front-end: method, path, the three validated headers (absent is distinct
from empty) and the raw body. -/
structure IncomingReport where
  method : String
  path : String
  deduplicationId : Option ByteStr
  extensionVersion : Option ByteStr
  userAgent : Option ByteStr
  body : ByteStr

/-- Validator outcome (spec §3). -/
inductive Decision where
  | accepted
  | rejectedMethod
  | rejectedBodyTooLarge
  | rejectedMissingOrInvalidHeader
deriving DecidableEq, Repr

/-- HTTP status implied by each outcome (spec §4.1 table). -/
def Decision.statusCode : Decision → Nat
  | .accepted => 204
  | .rejectedMethod => 405
  | .rejectedBodyTooLarge => 413
  | .rejectedMissingOrInvalidHeader => 400

/-- The fields of one audit-log line. -/
structure LogEntry where
  deduplicationId : ByteStr
  extensionVersion : ByteStr
  userAgent : ByteStr
deriving DecidableEq

/-- Modelled from the spec: the ordered validation rules of §4.1 (the
nginx configuration implementing them is not in src/). Returns the
decision and, only on acceptance, the fields of the log entry. -/
def validate (cfg : Config) (r : IncomingReport) : Decision × Option LogEntry :=
  if r.method ≠ "POST" then (.rejectedMethod, none)
  else if 2 ≤ r.body.length then (.rejectedBodyTooLarge, none)
  else
    match r.deduplicationId with
    | none => (.rejectedMissingOrInvalidHeader, none)
    | some d =>
      if dedupIdValid cfg.dedupLen d then
        match r.extensionVersion with
        | none => (.rejectedMissingOrInvalidHeader, none)
        | some v =>
          if extVersionValid v then
            match r.userAgent with
            | none => (.rejectedMissingOrInvalidHeader, none)
            | some ua =>
              if userAgentValid ua then (.accepted, some ⟨d, v, ua⟩)
              else (.rejectedMissingOrInvalidHeader, none)
          else (.rejectedMissingOrInvalidHeader, none)
      else (.rejectedMissingOrInvalidHeader, none)

/-- Serialized log line: `"<deduplicationId> <extensionVersion> \"<userAgent>\"\n"`
(32 is the space byte, 34 the double quote, 10 the newline). -/
def LogEntry.serialize (e : LogEntry) : ByteStr :=
  e.deduplicationId ++ [32] ++ e.extensionVersion ++ [32, 34] ++ e.userAgent ++ [34, 10]

/-- AuditLogger.append: appends one serialized line to the log. -/
def appendEntry (log : ByteStr) (e : LogEntry) : ByteStr := log ++ e.serialize

/-- AuditLogger.readAll as a state operation: returns the full current
log content together with the (unchanged) log state. -/
def readAll (log : ByteStr) : ByteStr × ByteStr := (log, log)

/-- Modelled from the spec: the front-end control flow — route by path first
(`/logpdfjs` to the validator, the static `/robots.txt` answer, 404
fallback), invoke the validator, append to the log only on acceptance.
Returns the response status and the new log content. -/
def handleRequest (cfg : Config) (log : ByteStr) (r : IncomingReport) : Nat × ByteStr :=
  if r.path = "/logpdfjs" then
    match validate cfg r with
    | (Decision.accepted, some e) => (Decision.accepted.statusCode, appendEntry log e)
    | (d, _) => (d.statusCode, log)
  else if r.path = "/robots.txt" then (200, log)
  else (404, log)

/-- The deployment exercised by the tests: `good_headers` in
src/testserver.py uses a 10-character deduplication id. -/
def testConfig : Config := ⟨10⟩

/-- The user-agent value of `good_headers` in src/testserver.py. -/
def goodUserAgent : ByteStr :=
  asciiBytes "Mozilla/5.0 (X11; Linux x86_64) AppleWebKit/537.36 (KHTML, like Gecko) Chrome/50.0.2661.94 Safari/537.36"

/-- The request sent by the passing tests: POST /logpdfjs with empty
body and the `good_headers` dictionary of src/testserver.py. -/
def goodRequest : IncomingReport :=
  { method := "POST"
    path := "/logpdfjs"
    deduplicationId := some (asciiBytes "0123456789")
    extensionVersion := some (asciiBytes "0")
    userAgent := some goodUserAgent
    body := [] }

/-- Base-10 digits, most significant first, with explicit recursion fuel
so that the definition computes by structural recursion. -/
def natDigitsAux : Nat → Nat → List Nat
  | 0, _ => []
  | fuel + 1, n =>
    if n < 10 then [n]
    else natDigitsAux fuel (n / 10) ++ [n % 10]

/-- Base-10 digits of a natural number, most significant first. -/
def natDigits (n : Nat) : List Nat := natDigitsAux (n + 1) n

/-- Python's `str(i)` for a non-negative integer, as ASCII bytes: the
base-10 digits rendered as the byte values '0'+d. -/
def pyStr (n : Nat) : ByteStr := (natDigits n).map (fun d => 48 + d)

example : versionNumPattern (asciiBytes "0") = true := by decide
example : versionNumPattern (asciiBytes "65535") = true := by decide
example : versionNumPattern (asciiBytes "65536") = false := by decide
example : versionNumPattern (asciiBytes "00000") = true := by decide
example : versionNumPattern (asciiBytes "000000") = false := by decide
example : extVersionValid (asciiBytes "65535.65535.65535.65535") = true := by decide
example : extVersionValid (asciiBytes "0.") = false := by decide
example : extVersionValid (asciiBytes ".0") = false := by decide
example : extVersionValid (asciiBytes ".") = false := by decide
example : extVersionValid (asciiBytes "") = false := by decide
example : pyStr 65536 = asciiBytes "65536" := by decide
example : (validate testConfig goodRequest).1.statusCode = 204 := by decide

/-! ### Basic facts about the digit representation -/

theorem natDigitsAux_irrel : ∀ (f1 n f2 : Nat), n < f1 → n < f2 →
    natDigitsAux f1 n = natDigitsAux f2 n := by
  intro f1
  induction f1 with
  | zero => intro n f2 h1 h2; omega
  | succ g ih =>
    intro n f2 h1 h2
    cases f2 with
    | zero => omega
    | succ g2 =>
      simp only [natDigitsAux]
      by_cases hn : n < 10
      · simp [hn]
      · simp only [hn, if_false]
        rw [ih (n / 10) g2 (by omega) (by omega)]

theorem natDigits_eq (n : Nat) :
    natDigits n = if n < 10 then [n] else natDigits (n / 10) ++ [n % 10] := by
  by_cases h : n < 10
  · simp [natDigits, natDigitsAux, h]
  · rw [if_neg h]
    have h1 : natDigits n = natDigitsAux n (n / 10) ++ [n % 10] := by
      simp only [natDigits, natDigitsAux, h, if_false]
    rw [h1, natDigitsAux_irrel n (n / 10) (n / 10 + 1) (by omega) (by omega)]
    rfl

theorem natDigits_ne_nil (n : Nat) : natDigits n ≠ [] := by
  rw [natDigits_eq]
  split <;> simp

theorem natDigits_digits_lt (n : Nat) : ∀ d ∈ natDigits n, d < 10 := by
  induction n using Nat.strong_induction_on with
  | _ n ih =>
    rw [natDigits_eq]
    split
    · intro d hd
      simp at hd
      omega
    · intro d hd
      rw [List.mem_append] at hd
      rcases hd with hd | hd
      · exact ih (n / 10) (Nat.div_lt_self (by omega) (by omega)) d hd
      · simp at hd
        omega

theorem natDigits_foldl (n : Nat) :
    (natDigits n).foldl (fun a d => 10 * a + d) 0 = n := by
  induction n using Nat.strong_induction_on with
  | _ n ih =>
    rw [natDigits_eq]
    split
    · simp
    · rw [List.foldl_append, ih (n / 10) (Nat.div_lt_self (by omega) (by omega))]
      simp only [List.foldl_cons, List.foldl_nil]
      omega

theorem natDigits_length_le : ∀ (k n : Nat), 1 ≤ k → n < 10 ^ k → (natDigits n).length ≤ k := by
  intro k
  induction k with
  | zero => intro n h1 h2; omega
  | succ j ih =>
    intro n hk hn
    rw [natDigits_eq]
    split
    · simp
    · rename_i h10
      have hj : 1 ≤ j := by
        by_contra hj0
        have hj' : j = 0 := by omega
        subst hj'
        norm_num at hn
        omega
      have hdiv : n / 10 < 10 ^ j := by
        rw [Nat.div_lt_iff_lt_mul (by omega : (0:Nat) < 10)]
        calc n < 10 ^ (j + 1) := hn
        _ = 10 ^ j * 10 := pow_succ 10 j
      have hlen := ih (n / 10) hj hdiv
      rw [List.length_append]
      simp only [List.length_cons, List.length_nil]
      omega

theorem decimalValue_map48 (ds : List Nat) :
    ∀ a : Nat, ((ds.map (fun d => 48 + d)).foldl (fun x b => 10 * x + (b - 48)) a)
      = ds.foldl (fun x d => 10 * x + d) a := by
  induction ds with
  | nil => intro a; rfl
  | cons d rest ih =>
    intro a
    simp only [List.map_cons, List.foldl_cons]
    have h48 : 48 + d - 48 = d := by omega
    rw [h48]
    exact ih _

theorem decimalValue_pyStr (n : Nat) : decimalValue (pyStr n) = n := by
  unfold pyStr decimalValue
  rw [decimalValue_map48]
  exact natDigits_foldl n

theorem pyStr_ne_nil (n : Nat) : pyStr n ≠ [] := by
  simp [pyStr, List.map_eq_nil, natDigits_ne_nil]

theorem pyStr_digits (n : Nat) : ∀ b ∈ pyStr n, isDigitByte b = true := by
  intro b hb
  unfold pyStr at hb
  rw [List.mem_map] at hb
  obtain ⟨d, hd, rfl⟩ := hb
  have hlt := natDigits_digits_lt n d hd
  simp only [isDigitByte, Bool.and_eq_true, decide_eq_true_eq]
  omega

theorem pyStr_length_le (n : Nat) (h : n ≤ 65535) : (pyStr n).length ≤ 5 := by
  unfold pyStr
  rw [List.length_map]
  have h5 : (10:Nat) ^ 5 = 100000 := by norm_num
  exact natDigits_length_le 5 n (by omega) (by omega)

/-! ### Facts about dot-splitting -/

theorem splitDots_ne_nil (cs : ByteStr) : splitDots cs ≠ [] := by
  induction cs with
  | nil => simp [splitDots]
  | cons b rest ih =>
    simp only [splitDots]
    split
    · simp
    · split
      · simp
      · simp

theorem splitDots_no_dot (cs : ByteStr) (h : ∀ b ∈ cs, b ≠ 46) : splitDots cs = [cs] := by
  induction cs with
  | nil => rfl
  | cons b rest ih =>
    have hb : ¬ (b = 46) := h b (by simp)
    have hrest : ∀ x ∈ rest, x ≠ 46 := fun x hx => h x (by simp [hx])
    simp only [splitDots, if_neg hb]
    rw [ih hrest]

/-! ### Length bounds for the numeric pattern -/

theorem matchDigits14_length {c : ByteStr} (h : matchDigits14 c = true) :
    1 ≤ c.length ∧ c.length ≤ 4 := by
  simp only [matchDigits14, Bool.and_eq_true, decide_eq_true_eq] at h
  exact h.1

theorem matchTailA_length {c : ByteStr} (h : matchTailA c = true) : c.length = 2 := by
  match c with
  | [] => exact Bool.noConfusion h
  | [a] => exact Bool.noConfusion h
  | [a, b] => rfl
  | a :: b :: x :: xs => exact Bool.noConfusion h

theorem matchTailB_length {c : ByteStr} (h : matchTailB c = true) : c.length = 3 := by
  match c with
  | [] => exact Bool.noConfusion h
  | a :: rest =>
    simp only [matchTailB, Bool.or_eq_true, Bool.and_eq_true, decide_eq_true_eq] at h
    rcases h with ⟨⟨⟨_, _⟩, hlen⟩, _⟩ | ⟨_, hA⟩
    · simp [hlen]
    · simp [matchTailA_length hA]

theorem matchTailC_length {c : ByteStr} (h : matchTailC c = true) : c.length = 4 := by
  match c with
  | [] => exact Bool.noConfusion h
  | a :: rest =>
    simp only [matchTailC, Bool.or_eq_true, Bool.and_eq_true, decide_eq_true_eq] at h
    rcases h with ⟨⟨⟨_, _⟩, hlen⟩, _⟩ | ⟨_, hB⟩
    · simp [hlen]
    · simp [matchTailB_length hB]

theorem versionNumPattern_length_le {c : ByteStr} (h : versionNumPattern c = true) :
    c.length ≤ 5 := by
  match c with
  | [] => simp
  | a :: rest =>
    simp only [versionNumPattern, Bool.or_eq_true, Bool.and_eq_true,
      decide_eq_true_eq] at h
    rcases h with h | (⟨⟨_, _⟩, h14⟩ | ⟨_, hC⟩)
    · have := matchDigits14_length h
      omega
    · have := (matchDigits14_length h14).2
      simp only [List.length_cons]
      omega
    · have := matchTailC_length hC
      simp only [List.length_cons]
      omega

/-! ### Characterization of the numeric pattern -/

theorem versionNumPattern_iff (c : ByteStr) :
    versionNumPattern c = true ↔
      (c ≠ [] ∧ c.length ≤ 5 ∧ (∀ b ∈ c, isDigitByte b = true) ∧ decimalValue c ≤ 65535) := by
  match c with
  | [] =>
    simp [versionNumPattern, matchDigits14]
  | [a] =>
    simp [versionNumPattern, matchDigits14, matchTailC, isDigitByte, decimalValue]
    omega
  | [a, b] =>
    simp [versionNumPattern, matchDigits14, matchTailC, matchTailB, isDigitByte, decimalValue]
    omega
  | [a, b, c2] =>
    simp [versionNumPattern, matchDigits14, matchTailC, matchTailB, matchTailA,
      isDigitByte, decimalValue]
    omega
  | [a, b, c2, d] =>
    simp [versionNumPattern, matchDigits14, matchTailC, matchTailB, matchTailA,
      isDigitByte, decimalValue]
    omega
  | [a, b, c2, d, e] =>
    simp [versionNumPattern, matchDigits14, matchTailC, matchTailB, matchTailA,
      isDigitByte, decimalValue]
    omega
  | a :: b :: c2 :: d :: e :: f :: rest =>
    constructor
    · intro h
      have hlen := versionNumPattern_length_le h
      simp only [List.length_cons] at hlen
      omega
    · intro h
      have hlen := h.2.1
      simp only [List.length_cons] at hlen
      omega

theorem extVersionValid_iff (s : ByteStr) :
    extVersionValid s = true ↔
      (1 ≤ (splitDots s).length ∧ (splitDots s).length ≤ 4 ∧
        ∀ c ∈ splitDots s,
          c ≠ [] ∧ c.length ≤ 5 ∧ (∀ b ∈ c, isDigitByte b = true) ∧ decimalValue c ≤ 65535) := by
  simp only [extVersionValid, Bool.and_eq_true, decide_eq_true_eq, List.all_eq_true,
    versionNumPattern_iff]
  tauto

theorem extVersionValid_pyStr (n : Nat) (h : n ≤ 65535) :
    extVersionValid (pyStr n) = true := by
  have hnodot : ∀ b ∈ pyStr n, b ≠ 46 := by
    intro b hb
    have := pyStr_digits n b hb
    simp only [isDigitByte, Bool.and_eq_true, decide_eq_true_eq] at this
    omega
  rw [extVersionValid_iff, splitDots_no_dot _ hnodot]
  refine ⟨by simp, by simp, ?_⟩
  intro c hc
  simp only [List.mem_singleton] at hc
  subst hc
  refine ⟨pyStr_ne_nil n, pyStr_length_le n h, pyStr_digits n, ?_⟩
  rw [decimalValue_pyStr]
  exact h

/-! ### Structure of the validator's result -/

theorem validate_cases (cfg : Config) (r : IncomingReport) :
    (∃ e : LogEntry, validate cfg r = (Decision.accepted, some e)) ∨
      (∃ d : Decision, d ≠ Decision.accepted ∧ validate cfg r = (d, none)) := by
  unfold validate
  repeat' split
  all_goals first
    | exact Or.inl ⟨_, rfl⟩
    | exact Or.inr ⟨_, by simp, rfl⟩

theorem validate_post (cfg : Config) (path : String) (d v ua body : ByteStr)
    (hbody : body.length ≤ 1) :
    validate cfg ⟨"POST", path, some d, some v, some ua, body⟩ =
      if dedupIdValid cfg.dedupLen d then
        if extVersionValid v then
          if userAgentValid ua then (Decision.accepted, some ⟨d, v, ua⟩)
          else (Decision.rejectedMissingOrInvalidHeader, none)
        else (Decision.rejectedMissingOrInvalidHeader, none)
      else (Decision.rejectedMissingOrInvalidHeader, none) := by
  have h2 : ¬ (2 ≤ body.length) := by omega
  simp [validate, h2]

theorem serialize_ne_nil (e : LogEntry) : e.serialize ≠ [] := by
  intro h
  have hlen := congrArg List.length h
  simp [LogEntry.serialize] at hlen

theorem append_ne_self {log s : ByteStr} (h : s ≠ []) : log ++ s ≠ log := by
  intro he
  have hlen := congrArg List.length he
  rw [List.length_append] at hlen
  have hs : s.length = 0 := by omega
  exact h (List.length_eq_zero.mp hs)

theorem handleRequest_split (cfg : Config) (log : ByteStr) (r : IncomingReport) :
    (r.path = "/logpdfjs" ∧ ∃ e : LogEntry, validate cfg r = (Decision.accepted, some e) ∧
        handleRequest cfg log r = (204, log ++ e.serialize))
    ∨ ((handleRequest cfg log r).2 = log ∧
        (r.path = "/logpdfjs" → (validate cfg r).1 ≠ Decision.accepted ∧
          (handleRequest cfg log r).1 = (validate cfg r).1.statusCode)) := by
  by_cases hp : r.path = "/logpdfjs"
  · rcases validate_cases cfg r with ⟨e, hv⟩ | ⟨d, hd, hv⟩
    · exact Or.inl ⟨hp, e, hv, by simp [handleRequest, hp, hv, appendEntry, Decision.statusCode]⟩
    · refine Or.inr ⟨?_, fun _ => ⟨by simp [hv, hd], ?_⟩⟩
      · cases d <;> simp_all [handleRequest, hp, hv]
      · cases d <;> simp_all [handleRequest, hp, hv]
  · refine Or.inr ⟨?_, fun hcon => absurd hcon hp⟩
    simp only [handleRequest, if_neg hp]
    split <;> simp

/-! ### Claim theorems -/

/-- C1 counterexample: the string "000000" consists, per the spec's own
canonical wording, of a single non-empty all-digit component representing
the integer 0 ∈ [0, 65535], yet the grammar (the range regex of the nginx
configuration, reproduced and exhaustively tested in src/testserver.py)
rejects it, because the regex only admits 1 to 5 digits per component. -/
theorem extVersion_leading_zeros_counterexample :
    (1 ≤ (splitDots (asciiBytes "000000")).length ∧
      (splitDots (asciiBytes "000000")).length ≤ 4 ∧
      ∀ c ∈ splitDots (asciiBytes "000000"), specNumericComponent c = true) ∧
    extVersionValid (asciiBytes "000000") = false := by
  decide

/-- C1 (amended): the extension-version grammar accepts exactly the
strings of 1 to 4 dot-separated components where each component is a
non-empty string of at most 5 decimal digits whose value is in
[0, 65535]; for every integer i in [0, 65535] the single-component string
str(i) is accepted and str(65536) is rejected; "0", "0.0.0.0" and
"65535.65535.65535.65535" are accepted; "", ".", "0." and ".0" are
rejected; and on a POST with valid body and the other headers valid, an
accepted extension-version yields status 204 and a rejected one 400. -/
theorem extVersion_grammar_characterization :
    (∀ s : ByteStr, extVersionValid s = true ↔
        (1 ≤ (splitDots s).length ∧ (splitDots s).length ≤ 4 ∧
          ∀ c ∈ splitDots s, c ≠ [] ∧ c.length ≤ 5 ∧
            (∀ b ∈ c, isDigitByte b = true) ∧ decimalValue c ≤ 65535))
    ∧ (∀ i : Nat, i ≤ 65535 → extVersionValid (pyStr i) = true)
    ∧ extVersionValid (pyStr 65536) = false
    ∧ extVersionValid (asciiBytes "0") = true
    ∧ extVersionValid (asciiBytes "0.0.0.0") = true
    ∧ extVersionValid (asciiBytes "65535.65535.65535.65535") = true
    ∧ extVersionValid (asciiBytes "") = false
    ∧ extVersionValid (asciiBytes ".") = false
    ∧ extVersionValid (asciiBytes "0.") = false
    ∧ extVersionValid (asciiBytes ".0") = false
    ∧ (∀ (cfg : Config) (path : String) (d v ua body : ByteStr),
        body.length ≤ 1 → dedupIdValid cfg.dedupLen d = true → userAgentValid ua = true →
        (validate cfg ⟨"POST", path, some d, some v, some ua, body⟩).1.statusCode
          = if extVersionValid v then 204 else 400) := by
  refine ⟨extVersionValid_iff, extVersionValid_pyStr, by decide, by decide, by decide,
    by decide, by decide, by decide, by decide, by decide, ?_⟩
  intro cfg path d v ua body hbody hd hua
  rw [validate_post cfg path d v ua body hbody, if_pos hd]
  by_cases hv : extVersionValid v = true
  · rw [if_pos hv, if_pos hua, if_pos hv]
    rfl
  · rw [if_neg hv, if_neg hv]
    rfl

theorem extVersion_grammar_characterization_witness :
    extVersionValid (pyStr 1337) = true :=
  extVersion_grammar_characterization.2.1 1337 (by omega)

/-- C2: on a POST with body of length 0 or 1, an absent deduplication-id
or one that is not exactly N lowercase hex digits is rejected with 400,
and every string of exactly N lowercase hex digits passes the check (and,
with the other headers valid, the request is accepted with 204). -/
theorem dedup_id_validation :
    ∀ (cfg : Config) (path : String) (v ua body : ByteStr), body.length ≤ 1 →
      ((validate cfg ⟨"POST", path, none, some v, some ua, body⟩).1.statusCode = 400)
      ∧ (∀ d : ByteStr, dedupIdValid cfg.dedupLen d = false →
          (validate cfg ⟨"POST", path, some d, some v, some ua, body⟩).1.statusCode = 400)
      ∧ (∀ d : ByteStr, ¬ (d.length = cfg.dedupLen ∧ ∀ b ∈ d, isLowerHexByte b = true) →
          dedupIdValid cfg.dedupLen d = false)
      ∧ (∀ d : ByteStr, d.length = cfg.dedupLen → (∀ b ∈ d, isLowerHexByte b = true) →
          dedupIdValid cfg.dedupLen d = true
          ∧ (extVersionValid v = true → userAgentValid ua = true →
              (validate cfg ⟨"POST", path, some d, some v, some ua, body⟩).1.statusCode = 204)) := by
  intro cfg path v ua body hbody
  have h2 : ¬ (2 ≤ body.length) := by omega
  refine ⟨?_, ?_, ?_, ?_⟩
  · simp [validate, h2, Decision.statusCode]
  · intro d hd
    rw [validate_post cfg path d v ua body hbody, if_neg (by simp [hd])]
    rfl
  · intro d hd
    rw [Bool.eq_false_iff]
    intro hcon
    apply hd
    simp only [dedupIdValid, Bool.and_eq_true, decide_eq_true_eq, List.all_eq_true] at hcon
    exact ⟨hcon.1, hcon.2⟩
  · intro d hlen hhex
    have hvalid : dedupIdValid cfg.dedupLen d = true := by
      simp only [dedupIdValid, Bool.and_eq_true, decide_eq_true_eq, List.all_eq_true]
      exact ⟨hlen, hhex⟩
    refine ⟨hvalid, ?_⟩
    intro hv hua
    rw [validate_post cfg path d v ua body hbody, if_pos hvalid, if_pos hv, if_pos hua]
    rfl

theorem dedup_id_validation_witness :
    (validate testConfig ⟨"POST", "/logpdfjs", some (asciiBytes "0123abcdef"),
        some (asciiBytes "0"), some (asciiBytes "a"), []⟩).1.statusCode = 204 := by
  have h := dedup_id_validation testConfig "/logpdfjs" (asciiBytes "0") (asciiBytes "a") []
    (by decide)
  exact (h.2.2.2 (asciiBytes "0123abcdef") (by decide) (by decide)).2 (by decide) (by decide)

/-- C3: on a POST with body of length 0 or 1 and valid deduplication-id
and extension-version, a user-agent of 1..1000 bytes with no NUL byte is
accepted with 204; length 0, length 1001 or more, or any NUL byte is
rejected with 400. -/
theorem user_agent_validation :
    ∀ (cfg : Config) (path : String) (d v body : ByteStr), body.length ≤ 1 →
      dedupIdValid cfg.dedupLen d = true → extVersionValid v = true →
      (∀ ua : ByteStr, 1 ≤ ua.length → ua.length ≤ 1000 → (∀ b ∈ ua, b ≠ 0) →
        (validate cfg ⟨"POST", path, some d, some v, some ua, body⟩).1.statusCode = 204)
      ∧ (∀ ua : ByteStr, ua.length = 0 ∨ 1001 ≤ ua.length ∨ 0 ∈ ua →
        (validate cfg ⟨"POST", path, some d, some v, some ua, body⟩).1.statusCode = 400) := by
  intro cfg path d v body hbody hd hv
  constructor
  · intro ua h1 h2 h3
    have hua : userAgentValid ua = true := by
      simp only [userAgentValid, Bool.and_eq_true, decide_eq_true_eq, List.all_eq_true]
      exact ⟨⟨h1, h2⟩, fun b hb => h3 b hb⟩
    rw [validate_post cfg path d v ua body hbody, if_pos hd, if_pos hv, if_pos hua]
    rfl
  · intro ua hbad
    have hua : ¬ (userAgentValid ua = true) := by
      simp only [userAgentValid, Bool.and_eq_true, decide_eq_true_eq, List.all_eq_true]
      rintro ⟨⟨hge, hle⟩, hall⟩
      rcases hbad with h0 | h0 | h0
      · omega
      · omega
      · exact hall 0 h0 rfl
    rw [validate_post cfg path d v ua body hbody, if_pos hd, if_pos hv, if_neg hua]
    rfl

theorem user_agent_validation_witness :
    (validate testConfig ⟨"POST", "/logpdfjs", some (asciiBytes "0123456789"),
        some (asciiBytes "0"), some (asciiBytes "a"), []⟩).1.statusCode = 204 := by
  have h := user_agent_validation testConfig "/logpdfjs" (asciiBytes "0123456789")
    (asciiBytes "0") [] (by decide) (by decide) (by decide)
  exact h.1 (asciiBytes "a") (by decide) (by decide) (by decide)

/-- C4: a POST to the logging endpoint with empty body and the good
headers with extension-version "1337" returns 204 and appends to the log
exactly the line `0123456789 1337 "<userAgent>"` followed by a newline;
nothing else in the log changes. -/
theorem post_good_report_appends_line :
    ∀ log : ByteStr,
      handleRequest testConfig log
          { goodRequest with extensionVersion := some (asciiBytes "1337") }
        = (204, log ++ asciiBytes "0123456789 1337 \"Mozilla/5.0 (X11; Linux x86_64) AppleWebKit/537.36 (KHTML, like Gecko) Chrome/50.0.2661.94 Safari/537.36\"\n") := by
  intro log
  rw [show ({ goodRequest with extensionVersion := some (asciiBytes "1337") } : IncomingReport)
      = ⟨"POST", "/logpdfjs", some (asciiBytes "0123456789"), some (asciiBytes "1337"),
          some goodUserAgent, []⟩ from rfl]
  have hv : validate testConfig ⟨"POST", "/logpdfjs", some (asciiBytes "0123456789"),
        some (asciiBytes "1337"), some goodUserAgent, []⟩
      = (Decision.accepted, some ⟨asciiBytes "0123456789", asciiBytes "1337", goodUserAgent⟩) := by
    decide
  have hser : (⟨asciiBytes "0123456789", asciiBytes "1337", goodUserAgent⟩ : LogEntry).serialize
      = asciiBytes "0123456789 1337 \"Mozilla/5.0 (X11; Linux x86_64) AppleWebKit/537.36 (KHTML, like Gecko) Chrome/50.0.2661.94 Safari/537.36\"\n" := by
    decide
  simp [handleRequest, hv, appendEntry, hser, Decision.statusCode]

/-- C5: a log entry is written iff validation accepted the report; on
acceptance exactly the one serialized line is appended, on rejection
(e.g. the good request with empty extension-version, status 400) the log
is unchanged. -/
theorem log_written_iff_accepted :
    ∀ (cfg : Config) (log : ByteStr) (r : IncomingReport),
      ((handleRequest cfg log r).2 ≠ log ↔
        (r.path = "/logpdfjs" ∧ (validate cfg r).1 = Decision.accepted))
      ∧ ((validate cfg r).1 = Decision.accepted → r.path = "/logpdfjs" →
          ∃ e : LogEntry, validate cfg r = (Decision.accepted, some e) ∧
            (handleRequest cfg log r).2 = appendEntry log e)
      ∧ handleRequest cfg log { goodRequest with extensionVersion := some (asciiBytes "") }
          = (400, log) := by
  intro cfg log r
  have hthird : handleRequest cfg log
      { goodRequest with extensionVersion := some (asciiBytes "") } = (400, log) := by
    rw [show ({ goodRequest with extensionVersion := some (asciiBytes "") } : IncomingReport)
        = ⟨"POST", "/logpdfjs", some (asciiBytes "0123456789"), some (asciiBytes ""),
            some goodUserAgent, []⟩ from rfl]
    have hv : validate cfg ⟨"POST", "/logpdfjs", some (asciiBytes "0123456789"),
          some (asciiBytes ""), some goodUserAgent, []⟩
        = (Decision.rejectedMissingOrInvalidHeader, none) := by
      rw [validate_post _ _ _ _ _ _ (by decide)]
      by_cases hd : dedupIdValid cfg.dedupLen (asciiBytes "0123456789") = true
      · rw [if_pos hd, if_neg (by decide : ¬ (extVersionValid (asciiBytes "") = true))]
      · rw [if_neg hd]
    simp [handleRequest, hv, Decision.statusCode]
  rcases handleRequest_split cfg log r with ⟨hp, e, hv, hh⟩ | ⟨hlog, hrej⟩
  · refine ⟨⟨fun _ => ⟨hp, by rw [hv]⟩, fun _ => ?_⟩, fun _ _ => ⟨e, hv, ?_⟩, hthird⟩
    · rw [hh]
      exact append_ne_self (serialize_ne_nil e)
    · simp [hh, appendEntry]
  · refine ⟨⟨fun hne => absurd hlog hne, ?_⟩, fun hacc hp => absurd hacc (hrej hp).1, hthird⟩
    rintro ⟨hp, hacc⟩
    exact absurd hacc (hrej hp).1

theorem log_written_iff_accepted_witness :
    ∃ e : LogEntry, validate testConfig goodRequest = (Decision.accepted, some e) ∧
      (handleRequest testConfig [] goodRequest).2 = appendEntry [] e :=
  (log_written_iff_accepted testConfig [] goodRequest).2.1 (by decide) rfl

/-- C6: any request whose method is not POST is rejected by the
validator with outcome rejectedMethod (status 405), whatever the headers
and body are — the method rule fires before any header inspection. -/
theorem non_post_rejected_405 :
    ∀ (cfg : Config) (log : ByteStr) (r : IncomingReport), r.method ≠ "POST" →
      validate cfg r = (Decision.rejectedMethod, none)
      ∧ Decision.rejectedMethod.statusCode = 405
      ∧ (r.path = "/logpdfjs" → (handleRequest cfg log r).1 = 405) := by
  intro cfg log r h
  have hv : validate cfg r = (Decision.rejectedMethod, none) := by
    unfold validate
    rw [if_pos h]
  refine ⟨hv, rfl, fun hp => ?_⟩
  simp [handleRequest, hp, hv, Decision.statusCode]

theorem non_post_rejected_405_witness :
    validate testConfig { goodRequest with method := "GET" } = (Decision.rejectedMethod, none) :=
  (non_post_rejected_405 testConfig [] { goodRequest with method := "GET" } (by decide)).1

/-- C7: a POST whose body is 2 bytes or longer is rejected with outcome
rejectedBodyTooLarge (status 413) whatever the headers are, and a body of
length 0 or 1 never triggers the body-size rejection. -/
theorem large_body_rejected_413 :
    ∀ (cfg : Config) (log : ByteStr) (r : IncomingReport),
      (r.method = "POST" → 2 ≤ r.body.length →
        validate cfg r = (Decision.rejectedBodyTooLarge, none)
        ∧ Decision.rejectedBodyTooLarge.statusCode = 413
        ∧ (r.path = "/logpdfjs" → (handleRequest cfg log r).1 = 413))
      ∧ (r.body.length ≤ 1 → (validate cfg r).1 ≠ Decision.rejectedBodyTooLarge) := by
  intro cfg log r
  constructor
  · intro hm hb
    have hv : validate cfg r = (Decision.rejectedBodyTooLarge, none) := by
      unfold validate
      rw [if_neg (by simp [hm]), if_pos hb]
    refine ⟨hv, rfl, fun hp => ?_⟩
    simp [handleRequest, hp, hv, Decision.statusCode]
  · intro hb
    have h2 : ¬ (2 ≤ r.body.length) := by omega
    unfold validate
    repeat' split
    all_goals simp

theorem large_body_rejected_413_witness :
    validate testConfig { goodRequest with body := [49, 50] }
      = (Decision.rejectedBodyTooLarge, none) :=
  ((large_body_rejected_413 testConfig [] { goodRequest with body := [49, 50] }).1
    (by decide) (by decide)).1

/-- C8: readAll is idempotent in the absence of writes: reading twice
with no intervening append returns identical bytes (and reading does not
change the log state). -/
theorem readAll_idempotent :
    ∀ log : ByteStr,
      (readAll (readAll log).2).1 = (readAll log).1 ∧ (readAll log).2 = log :=
  fun _ => ⟨rfl, rfl⟩

/-- C9: in the deployment exercised by the tests the configured
deduplication-id length is 10 — any 10-character lowercase-hex id on an
otherwise-good request is accepted with 204 (as is the tests' concrete
"0123abcdef"), while the 9-character and 11-character ids of the tests
are rejected with 400. -/
theorem dedup_len_ten_deployment :
    testConfig.dedupLen = 10
    ∧ (∀ d : ByteStr, d.length = 10 → (∀ b ∈ d, isLowerHexByte b = true) →
        (validate testConfig { goodRequest with deduplicationId := some d }).1.statusCode = 204)
    ∧ (validate testConfig
        { goodRequest with deduplicationId := some (asciiBytes "0123abcdef") }).1.statusCode = 204
    ∧ (validate testConfig
        { goodRequest with deduplicationId := some (asciiBytes "012345678") }).1.statusCode = 400
    ∧ (validate testConfig
        { goodRequest with deduplicationId := some (asciiBytes "0123456789a") }).1.statusCode = 400 := by
  refine ⟨rfl, ?_, by decide, by decide, by decide⟩
  intro d hlen hhex
  show (validate testConfig ⟨"POST", "/logpdfjs", some d, some (asciiBytes "0"),
      some goodUserAgent, []⟩).1.statusCode = 204
  rw [validate_post _ _ _ _ _ _ (by decide)]
  have hd : dedupIdValid testConfig.dedupLen d = true := by
    simp only [dedupIdValid, Bool.and_eq_true, decide_eq_true_eq, List.all_eq_true]
    exact ⟨hlen, hhex⟩
  rw [if_pos hd, if_pos (by decide : extVersionValid (asciiBytes "0") = true),
    if_pos (by decide : userAgentValid goodUserAgent = true)]
  rfl

theorem dedup_len_ten_deployment_witness :
    (validate testConfig
      { goodRequest with deduplicationId := some (asciiBytes "aaaaaaaaaa") }).1.statusCode = 204 :=
  dedup_len_ten_deployment.2.1 (asciiBytes "aaaaaaaaaa") (by decide) (by decide)

/-- C10: path routing is decided before method and body validation:
requests to /robots.txt get status 200 and requests to any path other
than /logpdfjs and /robots.txt get 404, regardless of method, headers
and body; in particular GET /robots.txt is 200 while GET /,
GET /favicon.ico and POST / with a body are all 404. Only requests to
/logpdfjs reach the validator. -/
theorem routing_before_validation :
    ∀ (cfg : Config) (log : ByteStr),
      (∀ r : IncomingReport, r.path = "/robots.txt" → handleRequest cfg log r = (200, log))
      ∧ (∀ r : IncomingReport, r.path ≠ "/logpdfjs" → r.path ≠ "/robots.txt" →
          handleRequest cfg log r = (404, log))
      ∧ handleRequest cfg log ⟨"GET", "/robots.txt", none, none, none, []⟩ = (200, log)
      ∧ handleRequest cfg log ⟨"GET", "/", none, none, none, []⟩ = (404, log)
      ∧ handleRequest cfg log ⟨"GET", "/favicon.ico", none, none, none, []⟩ = (404, log)
      ∧ handleRequest cfg log ⟨"POST", "/", none, none, none, []⟩ = (404, log) := by
  intro cfg log
  have h200 : ∀ r : IncomingReport, r.path = "/robots.txt" →
      handleRequest cfg log r = (200, log) := by
    intro r hp
    have hne : r.path ≠ "/logpdfjs" := by rw [hp]; decide
    simp [handleRequest, hne, hp]
  have h404 : ∀ r : IncomingReport, r.path ≠ "/logpdfjs" → r.path ≠ "/robots.txt" →
      handleRequest cfg log r = (404, log) := by
    intro r h1 h2
    simp [handleRequest, h1, h2]
  exact ⟨h200, h404, h200 _ rfl, h404 _ (by decide) (by decide),
    h404 _ (by decide) (by decide), h404 _ (by decide) (by decide)⟩

theorem routing_before_validation_witness :
    handleRequest testConfig [] ⟨"GET", "/elsewhere", none, none, none, []⟩ = (404, []) :=
  (routing_before_validation testConfig []).2.1 _ (by decide) (by decide)

theorem post_good_report_appends_line_witness :
    handleRequest testConfig [] { goodRequest with extensionVersion := some (asciiBytes "1337") }
      = (204, asciiBytes "0123456789 1337 \"Mozilla/5.0 (X11; Linux x86_64) AppleWebKit/537.36 (KHTML, like Gecko) Chrome/50.0.2661.94 Safari/537.36\"\n") := by
  have h := post_good_report_appends_line []
  simpa using h

theorem readAll_idempotent_witness :
    (readAll (readAll (asciiBytes "log")).2).1 = (readAll (asciiBytes "log")).1 ∧
      (readAll (asciiBytes "log")).2 = asciiBytes "log" :=
  readAll_idempotent (asciiBytes "log")
